import Mathlib

/-!
Shallow embedding of the task scheduling and state-persistence engine of the
TwBot repository (`src/app/taskManager.js`, with `formatTimeRemaining` from
`src/app/helper.js`), together with theorems settling the behavioural claims
about it.

Modelling conventions:
* Epoch-millisecond timestamps and intervals are `Nat`; JavaScript `null`
  is `Option.none`, and JavaScript truthiness of a `number|null` value is
  `truthy` below (both `null` and `0` are falsy).
* `Date.now()` is an explicit `now : Nat` argument.  Between two synchronous
  statements no time passes; the clock advances only across `await` points
  (inside a task executor, or the simulated login delay), which the model
  makes explicit.
* The executor functions stored in `this.taskFunctions` are modelled as an
  environment (`ExecEnv`) passed to the execution pass; an executor is an
  arbitrary function that receives the current time and engine state and
  finishes at a possibly later time with success or a thrown rejection,
  having possibly called back into the engine meanwhile.
* The config file on disk is modelled by the `disk` field (the last document
  written by `fs.writeFileSync`) plus a write counter `saveCount`.
* JavaScript property lookup on the `this.tasks` object literal also
  resolves the inherited `Object.prototype` member names (`toString`,
  `constructor`, ...) to truthy values, so the `!this.tasks[taskId]` guards
  do not reject those ids; the model tracks the properties the engine
  assigns onto the resolved built-in objects in the `protos` field.
-/

namespace TwBot

/-- The fixed set of known task identifiers, listed in the definition order
of the `this.tasks` object literal in the `TaskManager` constructor
(farm, balance, train); `Object.entries` preserves this order. -/
inductive TaskId
  | farm
  | balance
  | train
deriving DecidableEq

/-- In-memory task descriptor (`this.tasks[taskId]`).  `interval` is in
milliseconds; `lastRun` and `nextRun` are epoch milliseconds or `null`. -/
structure Task where
  name : String
  enabled : Bool
  interval : Nat
  lastRun : Option Nat
  nextRun : Option Nat
deriving DecidableEq

/-- JavaScript truthiness of a `number|null` value: `null` and `0` are
falsy, every other number is truthy. -/
def truthy : Option Nat → Bool
  | none => false
  | some n => n != 0

/-- JavaScript truthiness of a boolean property that may be undefined
(`none`): undefined is falsy. -/
def truthyB : Option Bool → Bool
  | none => false
  | some b => b

/-- JavaScript truthiness of a numeric property slot that may be undefined
(outer `none`), `null` (`some none`) or a number (`some (some n)`). -/
def truthySlot : Option (Option Nat) → Bool
  | none => false
  | some v => truthy v

/-- The own property names of `Object.prototype` in Node.  A lookup
`this.tasks[taskId]` (or `this.config.features[taskId]`) on an object
literal resolves these through the prototype chain to a truthy value (a
built-in function, or the prototype object itself for `__proto__`), so the
`!this.tasks[taskId]` guards do not reject these ids. -/
def protoKeys : List String :=
  ["constructor", "__defineGetter__", "__defineSetter__", "hasOwnProperty",
   "__lookupGetter__", "__lookupSetter__", "isPrototypeOf",
   "propertyIsEnumerable", "toString", "valueOf", "__proto__",
   "toLocaleString"]

/-- The properties the engine may assign onto the object an inherited
`Object.prototype` member name resolves to.  `enabled` is undefined
(`none`) until a boolean is assigned; `nextRun` is undefined (`none`),
assigned `null` (`some none`), or assigned a number (`some (some n)`).
`lastRun` is never assigned on these objects (the execution pass iterates
`Object.entries`, own keys only), so it is not tracked. -/
structure ProtoTask where
  enabled : Option Bool
  nextRun : Option (Option Nat)
deriving DecidableEq

/-- A member object with no engine-assigned properties yet. -/
def undefProto : ProtoTask := { enabled := none, nextRun := none }

/-- One `features.<taskId>` entry of the persisted `config.json` document.
`interval` is stored in minutes (only read for the balance task). -/
structure Feature where
  name : String
  enabled : Bool
  interval : Nat
  lastRun : Option Nat
  nextRun : Option Nat
deriving DecidableEq

/-- The persisted configuration document: the `features` section.  The alias
and authorization sections of the file are not interpreted by the task
manager and are omitted. -/
structure Config where
  farm : Feature
  balance : Feature
  train : Feature
deriving DecidableEq

/-- `config.features[taskId]` for a known id. -/
def Config.feature : Config → TaskId → Feature
  | c, .farm => c.farm
  | c, .balance => c.balance
  | c, .train => c.train

/-- Replace `config.features[taskId]`. -/
def Config.setFeature : Config → TaskId → Feature → Config
  | c, .farm, f => { c with farm := f }
  | c, .balance, f => { c with balance := f }
  | c, .train, f => { c with train := f }

/-- The mutable state of the `TaskManager` instance together with the model
of the file on disk.  The registered executor functions
(`this.taskFunctions`) are modelled by the `ExecEnv` argument of the
execution pass rather than stored in the state.  `protos` records, per
inherited `Object.prototype` member name, the properties the engine has
assigned onto the object that name resolves to (the key `"__proto__"`
denotes `Object.prototype` itself); these objects are not part of the
config document and are never persisted. -/
structure TMState where
  farm : Task
  balance : Task
  train : Task
  config : Config
  disk : Option Config
  saveCount : Nat
  isRunning : Bool
  currentlyExecuting : Bool
  protos : List (String × ProtoTask)
deriving DecidableEq

/-- `this.tasks[taskId]` for a known id. -/
def TMState.task : TMState → TaskId → Task
  | st, .farm => st.farm
  | st, .balance => st.balance
  | st, .train => st.train

/-- Replace `this.tasks[taskId]`. -/
def TMState.setTask : TMState → TaskId → Task → TMState
  | st, .farm, t => { st with farm := t }
  | st, .balance, t => { st with balance := t }
  | st, .train, t => { st with train := t }

/-- Replace `this.config.features[taskId]` inside the engine state. -/
def TMState.setCfgFeature (st : TMState) (tid : TaskId) (f : Feature) : TMState :=
  { st with config := st.config.setFeature tid f }

/-- The engine-assigned own properties of the object that the inherited
member name `p` resolves to. -/
def TMState.protoOwn (st : TMState) (p : String) : ProtoTask :=
  (st.protos.lookup p).getD undefProto

/-- JS property read `this.tasks[p].enabled` for an inherited member name
`p`: an own assignment on the member object shadows one made on
`Object.prototype` (which the engine reaches through the `__proto__`
key; the member functions' intermediate `Function.prototype` is never
written by the engine). -/
def TMState.protoEnabledRead (st : TMState) (p : String) : Option Bool :=
  if p = "__proto__" then (st.protoOwn p).enabled
  else ((st.protoOwn p).enabled).orElse fun _ => (st.protoOwn "__proto__").enabled

/-- JS property read `this.tasks[p].nextRun` for an inherited member name
`p`, with the same shadowing as `protoEnabledRead`. -/
def TMState.protoNextRunRead (st : TMState) (p : String) : Option (Option Nat) :=
  if p = "__proto__" then (st.protoOwn p).nextRun
  else ((st.protoOwn p).nextRun).orElse fun _ => (st.protoOwn "__proto__").nextRun

/-- A property assignment onto the object that the inherited member name
`p` resolves to. -/
def TMState.protoWrite (st : TMState) (p : String) (t : ProtoTask) : TMState :=
  { st with protos := (p, t) :: st.protos }

/-- The `TaskManager` constructor: loads the three task descriptors from the
config document.  The balance interval is converted from minutes to
milliseconds; farm and train get no fixed interval (`0`).  The scheduler
starts stopped and with no pass executing. -/
def initState (cfg : Config) : TMState :=
  { farm := { name := cfg.farm.name
              enabled := cfg.farm.enabled
              interval := 0
              lastRun := cfg.farm.lastRun
              nextRun := cfg.farm.nextRun }
    balance := { name := cfg.balance.name
                 enabled := cfg.balance.enabled
                 interval := cfg.balance.interval * 60 * 1000
                 lastRun := cfg.balance.lastRun
                 nextRun := cfg.balance.nextRun }
    train := { name := cfg.train.name
               enabled := cfg.train.enabled
               interval := 0
               lastRun := cfg.train.lastRun
               nextRun := cfg.train.nextRun }
    config := cfg
    disk := none
    saveCount := 0
    isRunning := false
    currentlyExecuting := false
    protos := [] }

/-- `saveConfig()`: copies the current task fields into the in-memory config
document (the balance interval converted back to minutes) and writes the
document to the file. -/
def saveConfig (st : TMState) : TMState :=
  let c := st.config
  let c := { c with
    farm := { c.farm with
              enabled := st.farm.enabled
              lastRun := st.farm.lastRun
              nextRun := st.farm.nextRun }
    balance := { c.balance with
                 enabled := st.balance.enabled
                 interval := st.balance.interval / (60 * 1000)
                 lastRun := st.balance.lastRun
                 nextRun := st.balance.nextRun }
    train := { c.train with
               enabled := st.train.enabled
               lastRun := st.train.lastRun
               nextRun := st.train.nextRun } }
  { st with config := c, disk := some c, saveCount := st.saveCount + 1 }

/-- Own-key lookup on `this.tasks`: the object literal's own keys are
farm, balance and train.  Ids that instead resolve through the prototype
chain (`protoKeys`) are handled separately in each operation. -/
def lookupTask (taskId : String) : Option TaskId :=
  if taskId = "farm" then some .farm
  else if taskId = "balance" then some .balance
  else if taskId = "train" then some .train
  else none

/-- `registerTask(taskId, executeFn, intervalMinutes = null)`: the
`!this.tasks[taskId]` guard rejects only ids that resolve to nothing — an
inherited `Object.prototype` member name passes it, gets its executor
stored (under an own key of `this.taskFunctions`; never invoked, since the
due list only ever holds own task keys, so the `ExecEnv` model omits it)
and returns success.  The interval is overwritten only when one is given
and the id is the string "balance".  Note that it never calls
`saveConfig`. -/
def registerTask (taskId : String) (intervalMinutes : Option Nat) (st : TMState) :
    Bool × TMState :=
  match lookupTask taskId with
  | none =>
    if taskId ∈ protoKeys then (true, st)
    else (false, st)
  | some tid =>
    match intervalMinutes with
    | some m =>
      if taskId = "balance" then
        (true, st.setTask tid { st.task tid with interval := m * 60 * 1000 })
      else (true, st)
    | none => (true, st)

/-- `setTaskEnabled(taskId, enabled)`: the guard rejects only ids that
resolve to nothing.  On a known task it sets the flag, schedules `nextRun =
now` when enabling with no (truthy) `nextRun`, clears `nextRun` when
disabling, saves the config and returns success.  On an inherited
`Object.prototype` member name the same assignments land on the inherited
object (leaving the three task descriptors untouched), and the config is
still saved. -/
def setTaskEnabled (now : Nat) (taskId : String) (enabled : Bool) (st : TMState) :
    Bool × TMState :=
  match lookupTask taskId with
  | none =>
    if taskId ∈ protoKeys then
      let st1 := st.protoWrite taskId { st.protoOwn taskId with enabled := some enabled }
      let st2 :=
        if enabled && !truthySlot (st1.protoNextRunRead taskId) then
          st1.protoWrite taskId { st1.protoOwn taskId with nextRun := some (some now) }
        else st1
      let st3 :=
        if !enabled then
          st2.protoWrite taskId { st2.protoOwn taskId with nextRun := some none }
        else st2
      (true, saveConfig st3)
    else (false, st)
  | some tid =>
    let st1 := st.setTask tid { st.task tid with enabled := enabled }
    let st2 :=
      if enabled && !(truthy (st1.task tid).nextRun) then
        st1.setTask tid { st1.task tid with nextRun := some now }
      else st1
    let st3 :=
      if !enabled then st2.setTask tid { st2.task tid with nextRun := none }
      else st2
    (true, saveConfig st3)

/-- `setTaskNextRun(taskId, minutesUntilNextRun)`: the guard fails when the
id resolves to nothing or the resolved object's `enabled` is falsy.  On a
known enabled task it pins `nextRun = now + minutes*60000`, mirrors it into
the config document (the feature entry exists for a known id) and saves.
On an inherited member name whose phantom `enabled` was made truthy by an
earlier `setTaskEnabled` call, the assignment lands on the inherited
object; `this.config.features[taskId]` resolves to the same inherited
object (truthy), so that branch re-assigns the same value and saves. -/
def setTaskNextRun (now : Nat) (taskId : String) (minutes : Nat) (st : TMState) :
    Bool × TMState :=
  match lookupTask taskId with
  | none =>
    if taskId ∈ protoKeys then
      if !truthyB (st.protoEnabledRead taskId) then (false, st)
      else
        let st1 := st.protoWrite taskId
          { st.protoOwn taskId with nextRun := some (some (now + minutes * 60 * 1000)) }
        (true, saveConfig st1)
    else (false, st)
  | some tid =>
    if !(st.task tid).enabled then (false, st)
    else
      let st1 := st.setTask tid
        { st.task tid with nextRun := some (now + minutes * 60 * 1000) }
      let st2 := st1.setCfgFeature tid
        { st1.config.feature tid with nextRun := (st1.task tid).nextRun }
      (true, saveConfig st2)

/-- `setBalanceInterval(intervalMinutes)`: stores the interval in
milliseconds; when the balance task is enabled and has a (truthy) `lastRun`,
re-anchors `nextRun = lastRun + interval`; saves and returns success. -/
def setBalanceInterval (minutes : Nat) (st : TMState) : Bool × TMState :=
  let st1 := st.setTask .balance { st.balance with interval := minutes * 60 * 1000 }
  let st2 :=
    if st1.balance.enabled && truthy st1.balance.lastRun then
      st1.setTask .balance
        { st1.balance with nextRun := some (st1.balance.lastRun.getD 0 + st1.balance.interval) }
    else st1
  (true, saveConfig st2)

/-- `setTaskInterval(taskId, intervalMinutes)`: only the balance task
supports interval changes; every other id is rejected. -/
def setTaskInterval (taskId : String) (minutes : Nat) (st : TMState) :
    Bool × TMState :=
  if taskId = "balance" then setBalanceInterval minutes st
  else (false, st)

/-- `start()`. -/
def start (st : TMState) : Bool × TMState :=
  (true, { st with isRunning := true })

/-- `stop()`. -/
def stop (st : TMState) : Bool × TMState :=
  (true, { st with isRunning := false })

/-- Definition order of `Object.entries(this.tasks)`. -/
def TaskId.all : List TaskId := [.farm, .balance, .train]

/-- The due test of `getDueTasks`:
`task.enabled && task.nextRun && task.nextRun <= now`
(JavaScript truthiness on `nextRun`). -/
def isDue (now : Nat) (t : Task) : Bool :=
  t.enabled && truthy t.nextRun && decide (t.nextRun.getD 0 ≤ now)

/-- `getDueTasks()`: empty when the scheduler is stopped or a pass is
executing; otherwise the due tasks in definition order. -/
def getDueTasks (now : Nat) (st : TMState) : List TaskId :=
  if !st.isRunning || st.currentlyExecuting then []
  else TaskId.all.filter (fun tid => isDue now (st.task tid))

/-- A registered executor (`this.taskFunctions[taskId]`): given the current
time and engine state it finishes at some (usually later) time, with `true`
for success or `false` for a thrown rejection, and with whatever engine
state its callbacks (e.g. `setTaskNextRun`) produced. -/
abbrev Executor := Nat → TMState → Bool × TMState × Nat

/-- The executor store `this.taskFunctions`. -/
abbrev ExecEnv := TaskId → Option Executor

/-- The body of the `for (const taskId of dueTasks)` loop in
`executeDueTasks`, acting on state paired with the current time: a task with
no registered executor is skipped silently; otherwise its executor runs, and
on success `lastRun` is set to the completion time, `nextRun` is recomputed
as completion time plus interval only for balance with a positive interval,
both are mirrored into the config document, and the config is saved.  A
thrown executor error is caught and nothing is recorded. -/
def execOne (fns : ExecEnv) (tid : TaskId) : TMState × Nat → TMState × Nat :=
  fun p =>
    match fns tid with
    | none => p
    | some f =>
      match f p.2 p.1 with
      | (ok, st1, t1) =>
        if ok then
          let st2 := st1.setTask tid { st1.task tid with lastRun := some t1 }
          let st2 := st2.setCfgFeature tid
            { st2.config.feature tid with lastRun := (st2.task tid).lastRun }
          let st3 :=
            if tid = TaskId.balance ∧ 0 < (st2.task tid).interval then
              let st4 := st2.setTask tid
                { st2.task tid with nextRun := some (t1 + (st2.task tid).interval) }
              st4.setCfgFeature tid
                { st4.config.feature tid with nextRun := (st4.task tid).nextRun }
            else st2
          (saveConfig st3, t1)
        else (st1, t1)

/-- The `for` loop of `executeDueTasks` over the captured due list. -/
def execList (fns : ExecEnv) : List TaskId → TMState × Nat → TMState × Nat
  | [], p => p
  | tid :: rest, p => execList fns rest (execOne fns tid p)

/-- `executeDueTasks()`: captures the due set and returns `false` at once
when it is empty; otherwise raises `currentlyExecuting`, simulates login
(which advances the clock by `loginMs`), runs each due task in order, and
the `finally` clause clears `currentlyExecuting` before returning `true`. -/
def executeDueTasks (fns : ExecEnv) (now loginMs : Nat) (st : TMState) :
    TMState × Bool :=
  let dueTasks := getDueTasks now st
  if dueTasks.isEmpty then (st, false)
  else
    let st1 := { st with currentlyExecuting := true }
    let q := execList fns dueTasks (st1, now + loginMs)
    ({ q.1 with currentlyExecuting := false }, true)

/-- Model of JavaScript `n.toString().padStart(2, '0')` for a natural
number. -/
def pad2 (n : Nat) : String :=
  if n < 10 then "0" ++ toString n else toString n

/-- `formatTimeRemaining(milliseconds)` from `src/app/helper.js`
(MM:SS format; non-positive input yields "00:00"). -/
def formatTimeRemaining (milliseconds : Nat) : String :=
  if milliseconds ≤ 0 then "00:00"
  else
    let seconds := milliseconds / 1000
    let minutes := seconds / 60
    let remainingSeconds := seconds % 60
    pad2 minutes ++ ":" ++ pad2 remainingSeconds

/-- The record returned by `getTaskStatus` for an id whose lookup is
truthy.  For a real task every field is present; for an inherited
`Object.prototype` member name, `name`/`enabled` can be undefined
(`none`). -/
structure TaskStatus where
  name : Option String
  enabled : Option Bool
  lastRun : Option Nat
  nextRun : Option Nat
  interval : Option Nat
  timeUntilNextRun : String
deriving DecidableEq

/-- `getTaskStatus(taskId)`: `null` only when `this.tasks[taskId]` resolves
to nothing.  For a known id it is a pure read of the descriptor (interval
reported in minutes, and only for balance; `Math.max(0, nextRun - now)` is
truncated subtraction on `Nat`).  For an inherited member name it reads the
resolved object: `name` is the built-in function's own name ("Object" for
the key "constructor"; undefined for "__proto__", which resolves to the
prototype object itself), `enabled`/`nextRun` are the phantom properties,
`lastRun` is undefined, and `interval` is null since the id is not the
string "balance". -/
def getTaskStatus (now : Nat) (taskId : String) (st : TMState) :
    Option TaskStatus :=
  match lookupTask taskId with
  | none =>
    if taskId ∈ protoKeys then
      some
        { name := if taskId = "constructor" then some "Object"
                  else if taskId = "__proto__" then none
                  else some taskId
          enabled := st.protoEnabledRead taskId
          lastRun := none
          nextRun := (st.protoNextRunRead taskId).getD none
          interval := none
          timeUntilNextRun :=
            if truthySlot (st.protoNextRunRead taskId) then
              formatTimeRemaining (((st.protoNextRunRead taskId).getD none).getD 0 - now)
            else "N/A" }
    else none
  | some tid =>
    let t := st.task tid
    some
      { name := some t.name
        enabled := some t.enabled
        lastRun := t.lastRun
        nextRun := t.nextRun
        interval := if tid = TaskId.balance then some (t.interval / (60 * 1000)) else none
        timeUntilNextRun :=
          if truthy t.nextRun then formatTimeRemaining (t.nextRun.getD 0 - now)
          else "N/A" }

/-- The spec invariant on one task descriptor: a disabled task has no
scheduled next run. -/
abbrev TaskInv (t : Task) : Prop := t.enabled = false → t.nextRun = none

/-- The spec invariant on every task descriptor of a state. -/
abbrev Inv (st : TMState) : Prop :=
  TaskInv st.farm ∧ TaskInv st.balance ∧ TaskInv st.train

/-- The same invariant on one persisted feature entry. -/
abbrev FeatureInv (f : Feature) : Prop := f.enabled = false → f.nextRun = none

/-- The invariant on a config document. -/
abbrev CfgInv (c : Config) : Prop :=
  FeatureInv c.farm ∧ FeatureInv c.balance ∧ FeatureInv c.train

/-- Well-formed stored timestamps on one task: epoch-millisecond values
produced by `Date.now()` (or persisted from one) are positive, so the value
`0` — which JavaScript truthiness conflates with `null` — does not occur. -/
abbrev TaskPos (t : Task) : Prop := t.nextRun ≠ some 0 ∧ t.lastRun ≠ some 0

/-- Well-formed stored timestamps on every task of a state. -/
abbrev PosTimes (st : TMState) : Prop :=
  TaskPos st.farm ∧ TaskPos st.balance ∧ TaskPos st.train

/-- The in-memory config document `c` mirrors every task-descriptor field
that `saveConfig` copies from the state `st`. -/
abbrev mirrors (c : Config) (st : TMState) : Prop :=
  c.farm.enabled = st.farm.enabled ∧ c.farm.lastRun = st.farm.lastRun ∧
  c.farm.nextRun = st.farm.nextRun ∧
  c.balance.enabled = st.balance.enabled ∧
  c.balance.interval = st.balance.interval / (60 * 1000) ∧
  c.balance.lastRun = st.balance.lastRun ∧ c.balance.nextRun = st.balance.nextRun ∧
  c.train.enabled = st.train.enabled ∧ c.train.lastRun = st.train.lastRun ∧
  c.train.nextRun = st.train.nextRun

/-- State `post` ends a mutating call on state `pre` that persisted exactly
once: one more file write happened, the document on disk is the current
in-memory document, and that document mirrors the task descriptors. -/
abbrev Persisted (pre post : TMState) : Prop :=
  post.saveCount = pre.saveCount + 1 ∧ post.disk = some post.config ∧
  mirrors post.config post

/-- A sample feature entry: disabled, never run, nothing scheduled,
30-minute interval field. -/
def featA : Feature :=
  { name := "T", enabled := false, interval := 30, lastRun := none, nextRun := none }

/-- A sample config document. -/
def cfgA : Config := { farm := featA, balance := featA, train := featA }

/-- A sample freshly-constructed state (everything disabled). -/
def stA : TMState := initState cfgA

/-- A sample running state: farm and balance enabled and scheduled for time
10, train disabled; balance keeps its 30-minute (1800000 ms) interval. -/
def stB : TMState :=
  { stA with
    isRunning := true
    farm := { name := "T", enabled := true, interval := 0, lastRun := none, nextRun := some 10 }
    balance := { name := "T", enabled := true, interval := 1800000, lastRun := none, nextRun := some 10 } }

/-- A state whose balance task is enabled with lastRun recorded at 7. -/
def stC6 : TMState :=
  { stB with balance := { stB.balance with lastRun := some 7 } }

/-- A state whose farm task is disabled but carries a stale past
`nextRun = 5` (loadable from a hand-edited or legacy config file). -/
def stC5 : TMState :=
  { stA with farm := { stA.farm with nextRun := some 5 } }

/-- A running state whose balance task is enabled, due at time 10, with a
one-minute interval. -/
def stC4 : TMState :=
  { stA with
    isRunning := true
    balance := { name := "T", enabled := true, interval := 60000, lastRun := none, nextRun := some 10 } }

/-- An executor store with no registered executors. -/
def fnsNone : ExecEnv := fun _ => none

/-- An executor that succeeds after two milliseconds without touching the
engine state. -/
def fSucc : Executor := fun t st => (true, st, t + 2)

/-- An executor that throws after one millisecond without touching the
engine state. -/
def fFail : Executor := fun t st => (false, st, t + 1)

/-- A dynamic-schedule executor for the farm task: it calls back
`setTaskNextRun("farm", 45)` and then succeeds. -/
def fSched : Executor := fun t st => (true, (setTaskNextRun t "farm" 45 st).2, t + 2)

/-- Executor store: the dynamic `fSched` for farm, the plain `fSucc` for
balance, nothing for train. -/
def fnsW : ExecEnv := fun tid =>
  match tid with
  | .farm => some fSched
  | .balance => some fSucc
  | .train => none

/-- Executor store whose farm executor throws and whose balance executor
succeeds. -/
def fnsF : ExecEnv := fun tid =>
  match tid with
  | .farm => some fFail
  | .balance => some fSucc
  | .train => none

/-- An executor that disables the balance task (the command front-end acting
during the executor's `await`) and then reports success. -/
def fDisable : Executor := fun t st => (true, (setTaskEnabled t "balance" false st).2, t)

/-- Executor store carrying only `fDisable` on balance. -/
def fnsC4 : ExecEnv := fun tid =>
  match tid with
  | .balance => some fDisable
  | _ => none

/-! ## Helper lemmas -/

theorem task_setTask_self (st : TMState) (tid : TaskId) (t : Task) :
    (st.setTask tid t).task tid = t := by
  cases tid <;> rfl

theorem task_setTask_other (st : TMState) (tid tid2 : TaskId) (t : Task)
    (h : tid2 ≠ tid) : (st.setTask tid t).task tid2 = st.task tid2 := by
  cases tid <;> cases tid2 <;> simp_all [TMState.setTask, TMState.task]

theorem task_saveConfig (st : TMState) (tid : TaskId) :
    (saveConfig st).task tid = st.task tid := by
  cases tid <;> rfl

theorem task_setCfgFeature (st : TMState) (tid tid2 : TaskId) (f : Feature) :
    (st.setCfgFeature tid f).task tid2 = st.task tid2 := by
  cases tid2 <;> rfl

theorem saveConfig_balance (st : TMState) : (saveConfig st).balance = st.balance := rfl

theorem setTask_balance (st : TMState) (t : Task) :
    (st.setTask TaskId.balance t).balance = t := rfl

theorem saveCount_setTask (st : TMState) (tid : TaskId) (t : Task) :
    (st.setTask tid t).saveCount = st.saveCount := by
  cases tid <;> rfl

theorem saveCount_setCfgFeature (st : TMState) (tid : TaskId) (f : Feature) :
    (st.setCfgFeature tid f).saveCount = st.saveCount := rfl

theorem saveConfig_persists (pre st : TMState) (h : st.saveCount = pre.saveCount) :
    Persisted pre (saveConfig st) :=
  ⟨by show st.saveCount + 1 = pre.saveCount + 1; rw [h], rfl,
   rfl, rfl, rfl, rfl, rfl, rfl, rfl, rfl, rfl, rfl⟩

theorem truthy_of_pos (o : Option Nat) (h : o ≠ some 0) :
    truthy o = o.isSome := by
  cases o with
  | none => rfl
  | some n =>
    simp only [truthy, Option.isSome]
    simp only [ne_eq, Option.some.injEq] at h
    simp [h]

theorem isDue_eq_of_pos (now : Nat) (t : Task) (h : t.nextRun ≠ some 0) :
    isDue now t =
      (t.enabled && t.nextRun.isSome && decide (t.nextRun.getD 0 ≤ now)) := by
  unfold isDue
  rw [truthy_of_pos _ h]

theorem isDue_mono (now now2 : Nat) (t : Task) (hle : now ≤ now2)
    (h : isDue now t = true) : isDue now2 t = true := by
  unfold isDue at h ⊢
  simp only [Bool.and_eq_true, decide_eq_true_eq] at h ⊢
  exact ⟨⟨h.1.1, h.1.2⟩, le_trans h.2 hle⟩

theorem due_nonempty_state (now : Nat) (st : TMState)
    (h : getDueTasks now st ≠ []) :
    st.isRunning = true ∧ st.currentlyExecuting = false := by
  unfold getDueTasks at h
  split at h
  · exact absurd rfl h
  · rename_i hcond
    simpa using hcond

theorem set_executing_false_self (st : TMState) (h : st.currentlyExecuting = false) :
    { st with currentlyExecuting := false } = st := by
  cases st
  simp_all

theorem execOne_none (fns : ExecEnv) (tid : TaskId) (h : fns tid = none)
    (p : TMState × Nat) : execOne fns tid p = p := by
  unfold execOne
  rw [h]

theorem execList_none (fns : ExecEnv) (hf : ∀ u, fns u = none) :
    ∀ l p, execList fns l p = p := by
  intro l
  induction l with
  | nil => intro p; rfl
  | cons a l ih =>
    intro p
    rw [execList, execOne_none fns a (hf a), ih]

/-! ## Claim theorems -/

/-- C2: for every scheduler state with well-formed (positive) stored
timestamps, `getDueTasks` returns the empty sequence whenever the scheduler
is stopped (`isRunning` false) or a pass is executing (`currentlyExecuting`
true); otherwise it returns exactly the ids of the enabled tasks whose
`nextRun` is present and at or before the current time, always in the fixed
definition order farm, balance, train. -/
theorem getDueTasks_spec (now : Nat) (st : TMState) (hp : PosTimes st) :
    (st.isRunning = false ∨ st.currentlyExecuting = true →
      getDueTasks now st = []) ∧
    (st.isRunning = true → st.currentlyExecuting = false →
      getDueTasks now st = TaskId.all.filter (fun tid =>
        (st.task tid).enabled && (st.task tid).nextRun.isSome &&
        decide ((st.task tid).nextRun.getD 0 ≤ now))) := by
  constructor
  · intro h
    unfold getDueTasks
    rcases h with h | h <;> simp [h]
  · intro h1 h2
    unfold getDueTasks
    have hfun : (fun tid => isDue now (st.task tid)) =
        (fun tid => (st.task tid).enabled && (st.task tid).nextRun.isSome &&
          decide ((st.task tid).nextRun.getD 0 ≤ now)) := by
      funext tid
      cases tid
      · exact isDue_eq_of_pos now _ hp.1.1
      · exact isDue_eq_of_pos now _ hp.2.1.1
      · exact isDue_eq_of_pos now _ hp.2.2.1
    rw [hfun]
    simp [h1, h2]

/-- C2 witness: in the sample running state, farm and balance (due at 10)
are returned at time 20 in definition order. -/
theorem getDueTasks_spec_witness :
    stB.isRunning = true ∧ stB.currentlyExecuting = false ∧
    getDueTasks 20 stB = TaskId.all.filter (fun tid =>
      (stB.task tid).enabled && (stB.task tid).nextRun.isSome &&
      decide ((stB.task tid).nextRun.getD 0 ≤ 20)) :=
  ⟨by decide, by decide,
    (getDueTasks_spec 20 stB (by decide)).2 (by decide) (by decide)⟩

/-- C7: for every known task id and minutes value, `setTaskNextRun` on a
task that is not enabled fails and leaves the whole state (in particular the
task's `nextRun`) untouched; on an enabled task it succeeds and sets
`nextRun = now + minutes*60000`. -/
theorem setTaskNextRun_spec (now minutes : Nat) (s : String) (tid : TaskId)
    (st : TMState) (hs : lookupTask s = some tid) :
    ((st.task tid).enabled = false → setTaskNextRun now s minutes st = (false, st)) ∧
    ((st.task tid).enabled = true →
      (setTaskNextRun now s minutes st).1 = true ∧
      ((setTaskNextRun now s minutes st).2.task tid).nextRun =
        some (now + minutes * 60 * 1000)) := by
  constructor
  · intro h
    unfold setTaskNextRun
    rw [hs]
    simp [h]
  · intro h
    unfold setTaskNextRun
    rw [hs]
    simp [h, task_saveConfig, task_setCfgFeature, task_setTask_self]

/-- C7 witness: pinning the enabled farm task at time 20 for 30 minutes
yields `nextRun = 20 + 1800000`. -/
theorem setTaskNextRun_spec_witness :
    (stB.task TaskId.farm).enabled = true ∧
    (setTaskNextRun 20 "farm" 30 stB).1 = true ∧
    ((setTaskNextRun 20 "farm" 30 stB).2.task TaskId.farm).nextRun =
      some (20 + 30 * 60 * 1000) :=
  ⟨by decide, (setTaskNextRun_spec 20 30 "farm" TaskId.farm stB rfl).2 (by decide)⟩

/-- C9 counterexample: the id "toString" lies outside the known set, yet
`this.tasks["toString"]` resolves through the prototype chain to the
inherited built-in (truthy), so the `!this.tasks[taskId]` guard passes:
`setTaskEnabled` reports success and performs a persistence write,
`registerTask` reports success, and `getTaskStatus` returns a non-null
record — against the claim that every id outside the known set is rejected
with no write. -/
theorem protoId_guard_cex :
    (setTaskEnabled 5 "toString" true stA).1 = true ∧
    (setTaskEnabled 5 "toString" true stA).2.saveCount = stA.saveCount + 1 ∧
    registerTask "toString" none stA = (true, stA) ∧
    (getTaskStatus 5 "toString" stA).isSome = true := by
  decide

/-- C9 amended: for every id outside the known set {farm, balance, train}
that is not an inherited `Object.prototype` member name, every mutating
operation fails returning the state unchanged (hence no persistence write)
and `getTaskStatus` returns `none`.  For an inherited member name the
guard is fooled: `registerTask` reports success (still with no state
change), `setTaskEnabled` reports success and performs a persistence
write, `setTaskNextRun` fails while the phantom `enabled` of the resolved
object is falsy and succeeds with a write once it is truthy, and
`getTaskStatus` returns a non-null record; only `setTaskInterval` still
fails (it compares the id against the string "balance"), and in every case
the three real task descriptors are untouched. -/
theorem unknownTask_rejected_amended (now m : Nat) (e : Bool) (im : Option Nat)
    (s : String) (st : TMState) :
    (s ≠ "farm" ∧ s ≠ "balance" ∧ s ≠ "train" ∧ s ∉ protoKeys →
      registerTask s im st = (false, st) ∧
      setTaskEnabled now s e st = (false, st) ∧
      setTaskNextRun now s m st = (false, st) ∧
      setTaskInterval s m st = (false, st) ∧
      getTaskStatus now s st = none) ∧
    (s ∈ protoKeys →
      registerTask s im st = (true, st) ∧
      (setTaskEnabled now s e st).1 = true ∧
      Persisted st (setTaskEnabled now s e st).2 ∧
      (setTaskEnabled now s e st).2.farm = st.farm ∧
      (setTaskEnabled now s e st).2.balance = st.balance ∧
      (setTaskEnabled now s e st).2.train = st.train ∧
      (truthyB (st.protoEnabledRead s) = false →
        setTaskNextRun now s m st = (false, st)) ∧
      (truthyB (st.protoEnabledRead s) = true →
        (setTaskNextRun now s m st).1 = true ∧
        (setTaskNextRun now s m st).2.saveCount = st.saveCount + 1 ∧
        (setTaskNextRun now s m st).2.farm = st.farm ∧
        (setTaskNextRun now s m st).2.balance = st.balance ∧
        (setTaskNextRun now s m st).2.train = st.train) ∧
      setTaskInterval s m st = (false, st) ∧
      (getTaskStatus now s st).isSome = true) := by
  constructor
  · intro hs
    have hl : lookupTask s = none := by
      unfold lookupTask
      simp [hs.1, hs.2.1, hs.2.2.1]
    have hnp : ¬ s ∈ protoKeys := hs.2.2.2
    refine ⟨?_, ?_, ?_, ?_, ?_⟩
    · unfold registerTask; rw [hl]; dsimp only; rw [if_neg hnp]
    · unfold setTaskEnabled; rw [hl]; dsimp only; rw [if_neg hnp]
    · unfold setTaskNextRun; rw [hl]; dsimp only; rw [if_neg hnp]
    · unfold setTaskInterval; rw [if_neg hs.2.1]
    · unfold getTaskStatus; rw [hl]; dsimp only; rw [if_neg hnp]
  · intro hp
    have hmem := hp
    simp only [protoKeys, List.mem_cons, List.not_mem_nil, or_false] at hmem
    have hl : lookupTask s = none := by
      rcases hmem with rfl | rfl | rfl | rfl | rfl | rfl | rfl | rfl | rfl | rfl | rfl | rfl <;>
        decide
    have hnb : s ≠ "balance" := by
      rcases hmem with rfl | rfl | rfl | rfl | rfl | rfl | rfl | rfl | rfl | rfl | rfl | rfl <;>
        decide
    refine ⟨?_, ?_, ?_, ?_, ?_, ?_, ?_, ?_, ?_, ?_⟩
    · unfold registerTask; rw [hl]; dsimp only; rw [if_pos hp]
    · unfold setTaskEnabled; rw [hl]; dsimp only; rw [if_pos hp]
    · unfold setTaskEnabled; rw [hl]; dsimp only; rw [if_pos hp]
      apply saveConfig_persists
      split <;> split <;> rfl
    · unfold setTaskEnabled; rw [hl]; dsimp only; rw [if_pos hp]
      show (saveConfig _).farm = st.farm
      split <;> split <;> rfl
    · unfold setTaskEnabled; rw [hl]; dsimp only; rw [if_pos hp]
      show (saveConfig _).balance = st.balance
      split <;> split <;> rfl
    · unfold setTaskEnabled; rw [hl]; dsimp only; rw [if_pos hp]
      show (saveConfig _).train = st.train
      split <;> split <;> rfl
    · intro hE
      unfold setTaskNextRun; rw [hl]; dsimp only; rw [if_pos hp]
      rw [if_pos (by simp [hE])]
    · intro hE
      unfold setTaskNextRun; rw [hl]; dsimp only; rw [if_pos hp]
      rw [if_neg (by simp [hE])]
      exact ⟨rfl, rfl, rfl, rfl, rfl⟩
    · unfold setTaskInterval; rw [if_neg hnb]
    · unfold getTaskStatus; rw [hl]; dsimp only; rw [if_pos hp]; rfl

/-- C9 witness: "bogus" is fully rejected with the state unchanged, while
"toString" slips past the guard: registration reports success and an
enable call persists the config. -/
theorem unknownTask_rejected_amended_witness :
    setTaskEnabled 5 "bogus" true stA = (false, stA) ∧
    getTaskStatus 5 "bogus" stA = none ∧
    registerTask "toString" none stA = (true, stA) ∧
    Persisted stA (setTaskEnabled 5 "toString" true stA).2 :=
  ⟨((unknownTask_rejected_amended 5 3 true none "bogus" stA).1 (by decide)).2.1,
   ((unknownTask_rejected_amended 5 3 true none "bogus" stA).1 (by decide)).2.2.2.2,
   ((unknownTask_rejected_amended 5 3 true none "toString" stA).2 (by decide)).1,
   ((unknownTask_rejected_amended 5 3 true none "toString" stA).2 (by decide)).2.2.1⟩

/-- C10: a due task with no registered executor is skipped silently: the
loop body leaves state and clock untouched (so its `lastRun`, `nextRun` and
`saveCount` are unchanged and no outcome is recorded); a pass over only such
tasks returns the state unchanged (with `currentlyExecuting` back to false);
and a task due at some time stays due at every later time while the state is
unchanged. -/
theorem unregistered_skipped (fns : ExecEnv) (tid : TaskId)
    (h : fns tid = none) :
    (∀ p, execOne fns tid p = p) ∧
    (∀ now loginMs st, (∀ u, fns u = none) → getDueTasks now st ≠ [] →
      executeDueTasks fns now loginMs st = (st, true)) ∧
    (∀ now now2 st, tid ∈ getDueTasks now st → now ≤ now2 →
      tid ∈ getDueTasks now2 st) := by
  refine ⟨fun p => execOne_none fns tid h p, ?_, ?_⟩
  · intro now loginMs st hall hne
    obtain ⟨hrun, hexec⟩ := due_nonempty_state now st hne
    unfold executeDueTasks
    rw [if_neg (by simpa using hne)]
    simp only [execList_none fns hall]
    obtain ⟨f, b, t, c, d, sc, ir, ce⟩ := st
    simp_all
  · intro now now2 st hmem hle
    unfold getDueTasks at hmem ⊢
    split at hmem
    · cases hmem
    · rename_i hcond
      rw [if_neg hcond]
      simp only [List.mem_filter] at hmem ⊢
      exact ⟨hmem.1, isDue_mono now now2 _ hle hmem.2⟩

/-- C10 witness: with nothing registered, the loop body is the identity and
a full pass over the sample running state returns it unchanged. -/
theorem unregistered_skipped_witness :
    execOne fnsNone TaskId.train (stB, 20) = (stB, 20) ∧
    executeDueTasks fnsNone 20 0 stB = (stB, true) :=
  ⟨(unregistered_skipped fnsNone TaskId.train rfl).1 (stB, 20),
   (unregistered_skipped fnsNone TaskId.train rfl).2.1 20 0 stB (fun _ => rfl)
     (by decide)⟩

/-- C1: when no tasks are due, `executeDueTasks` returns immediately with an
empty outcome (`false`) and the state — in particular `currentlyExecuting` —
untouched.  Otherwise, for each due task whose executor succeeds at time
`t1`, the loop body sets `lastRun = t1`; it recomputes
`nextRun = t1 + interval` only for the fixed-interval balance task when its
interval is positive, while farm and train (and balance with interval 0)
retain whatever `nextRun` the executor's own callbacks left in place. -/
theorem executeDueTasks_updates (fns : ExecEnv) :
    (∀ now loginMs st, getDueTasks now st = [] →
      executeDueTasks fns now loginMs st = (st, false)) ∧
    (∀ tid f p ok st1 t1, fns tid = some f → f p.2 p.1 = (ok, st1, t1) →
      ok = true →
      ((execOne fns tid p).1.task tid).lastRun = some t1 ∧
      (execOne fns tid p).2 = t1 ∧
      (tid = TaskId.balance → 0 < (st1.task tid).interval →
        ((execOne fns tid p).1.task tid).nextRun =
          some (t1 + (st1.task tid).interval)) ∧
      (tid = TaskId.farm ∨ tid = TaskId.train →
        ((execOne fns tid p).1.task tid).nextRun = (st1.task tid).nextRun) ∧
      (tid = TaskId.balance → (st1.task tid).interval = 0 →
        ((execOne fns tid p).1.task tid).nextRun = (st1.task tid).nextRun)) := by
  constructor
  · intro now loginMs st h
    unfold executeDueTasks
    rw [h]
    simp
  · intro tid f p ok st1 t1 hf hfp hok
    subst hok
    unfold execOne
    simp only [hf, hfp, if_true]
    refine ⟨?_, ?_, ?_, ?_, ?_⟩
    · rw [task_saveConfig]
      split
      · simp [task_setCfgFeature, task_setTask_self]
      · simp [task_setCfgFeature, task_setTask_self]
    · trivial
    · intro htid hpos
      subst htid
      rw [task_saveConfig]
      rw [if_pos ⟨rfl, by simpa [task_setCfgFeature, task_setTask_self] using hpos⟩]
      simp [task_setCfgFeature, task_setTask_self]
    · intro htid
      rw [task_saveConfig]
      rw [if_neg (by rcases htid with h | h <;> subst h <;> simp)]
      simp [task_setCfgFeature, task_setTask_self]
    · intro htid hzero
      subst htid
      rw [task_saveConfig]
      rw [if_neg (by simp [task_setCfgFeature, task_setTask_self, hzero])]
      simp [task_setCfgFeature, task_setTask_self]

/-- C1 witness: in the sample pass body at time 20, the farm executor calls
`setTaskNextRun("farm", 45)` and succeeds at 22; the loop body records
`lastRun = 22` and keeps the `nextRun` the executor pinned. -/
theorem executeDueTasks_updates_witness :
    ((execOne fnsW TaskId.farm (stB, 20)).1.task TaskId.farm).lastRun = some 22 ∧
    ((execOne fnsW TaskId.farm (stB, 20)).1.task TaskId.farm).nextRun =
      (((setTaskNextRun 20 "farm" 45 stB).2).task TaskId.farm).nextRun :=
  ⟨((executeDueTasks_updates fnsW).2 TaskId.farm fSched (stB, 20) true
      (setTaskNextRun 20 "farm" 45 stB).2 22 rfl rfl rfl).1,
   ((executeDueTasks_updates fnsW).2 TaskId.farm fSched (stB, 20) true
      (setTaskNextRun 20 "farm" 45 stB).2 22 rfl rfl rfl).2.2.2.1 (Or.inl rfl)⟩

/-- C3: a thrown executor is caught inside the pass: after any non-empty
pass `currentlyExecuting` is false again; the loop body adds nothing on
failure (no `lastRun`/`nextRun` update, no save), so when the executor left
the task's descriptor unchanged the descriptor — including its `enabled`
flag — is unchanged after the body, and the remaining due tasks of the same
pass are still processed from the post-failure state. -/
theorem executorFailure_isolated (fns : ExecEnv) :
    (∀ now loginMs st, getDueTasks now st ≠ [] →
      (executeDueTasks fns now loginMs st).1.currentlyExecuting = false) ∧
    (∀ tid f p st1 t1, fns tid = some f → f p.2 p.1 = (false, st1, t1) →
      execOne fns tid p = (st1, t1)) ∧
    (∀ tid rest f p st1 t1, fns tid = some f → f p.2 p.1 = (false, st1, t1) →
      execList fns (tid :: rest) p = execList fns rest (st1, t1)) ∧
    (∀ tid f p st1 t1, fns tid = some f → f p.2 p.1 = (false, st1, t1) →
      st1.task tid = p.1.task tid →
      (execOne fns tid p).1.task tid = p.1.task tid ∧
      (execOne fns tid p).1.saveCount = st1.saveCount) := by
  have hbody : ∀ tid f p st1 t1, fns tid = some f → f p.2 p.1 = (false, st1, t1) →
      execOne fns tid p = (st1, t1) := by
    intro tid f p st1 t1 hf hfp
    unfold execOne
    simp only [hf, hfp]
    rw [if_neg (by simp)]
  refine ⟨?_, hbody, ?_, ?_⟩
  · intro now loginMs st h
    unfold executeDueTasks
    rw [if_neg (by simpa using h)]
  · intro tid rest f p st1 t1 hf hfp
    rw [execList, hbody tid f p st1 t1 hf hfp]
  · intro tid f p st1 t1 hf hfp hpres
    rw [hbody tid f p st1 t1 hf hfp]
    exact ⟨hpres, rfl⟩

/-- C3 witness: at time 20 the farm executor of `fnsF` throws at 21 without
touching the state; the loop body returns the state unchanged, and a full
pass over the sample running state ends with `currentlyExecuting = false`. -/
theorem executorFailure_isolated_witness :
    getDueTasks 20 stB ≠ [] ∧
    (executeDueTasks fnsF 20 0 stB).1.currentlyExecuting = false ∧
    execOne fnsF TaskId.farm (stB, 20) = (stB, 21) :=
  ⟨by decide, (executorFailure_isolated fnsF).1 20 0 stB (by decide),
   (executorFailure_isolated fnsF).2.1 TaskId.farm fFail (stB, 20) stB 21 rfl rfl⟩

/-- C5 counterexample: enabling the disabled farm task at time 100 when it
carries the stale past `nextRun = 5` keeps 5; the claim, which only excepts
a *future* `nextRun`, demands `nextRun = 100` here. -/
theorem setTaskEnabled_cex :
    ((setTaskEnabled 100 "farm" true stC5).2.task TaskId.farm).nextRun = some 5 ∧
    ((setTaskEnabled 100 "farm" true stC5).2.task TaskId.farm).nextRun ≠ some 100 := by
  decide

/-- C5 amended: for a known task id, `setTaskEnabled(id, true)` sets
`nextRun` to the current time when the task has no `nextRun`, but keeps any
existing (positive) `nextRun` whether it lies in the future or in the past;
`setTaskEnabled(id, false)` always clears `nextRun`; and every call on a
known id sets the flag, returns success, and persists the config before
returning. -/
theorem setTaskEnabled_spec_amended (now : Nat) (s : String) (tid : TaskId)
    (st : TMState) (hs : lookupTask s = some tid) :
    ((st.task tid).nextRun = none →
      ((setTaskEnabled now s true st).2.task tid).nextRun = some now) ∧
    (∀ v, (st.task tid).nextRun = some v → 0 < v →
      ((setTaskEnabled now s true st).2.task tid).nextRun = some v) ∧
    ((setTaskEnabled now s false st).2.task tid).nextRun = none ∧
    (∀ e : Bool, (setTaskEnabled now s e st).1 = true ∧
      ((setTaskEnabled now s e st).2.task tid).enabled = e ∧
      Persisted st (setTaskEnabled now s e st).2) := by
  refine ⟨?_, ?_, ?_, ?_⟩
  · intro h
    unfold setTaskEnabled
    rw [hs]
    simp [task_saveConfig, task_setTask_self, h, truthy]
  · intro v h hv
    have hv0 : v ≠ 0 := Nat.pos_iff_ne_zero.mp hv
    unfold setTaskEnabled
    rw [hs]
    simp [task_saveConfig, task_setTask_self, h, truthy, hv0]
  · unfold setTaskEnabled
    rw [hs]
    simp [task_saveConfig, task_setTask_self]
  · intro e
    unfold setTaskEnabled
    rw [hs]
    refine ⟨rfl, ?_, ?_⟩
    · simp only []
      split <;> split <;> simp [task_saveConfig, task_setTask_self]
    · apply saveConfig_persists
      split <;> split <;> simp [saveCount_setTask]

/-- C5 witness: enabling farm (no `nextRun`) at time 50 schedules it for 50;
disabling clears the schedule. -/
theorem setTaskEnabled_spec_amended_witness :
    (stA.task TaskId.farm).nextRun = none ∧
    ((setTaskEnabled 50 "farm" true stA).2.task TaskId.farm).nextRun = some 50 ∧
    ((setTaskEnabled 50 "farm" false stA).2.task TaskId.farm).nextRun = none :=
  ⟨by decide,
   (setTaskEnabled_spec_amended 50 "farm" TaskId.farm stA rfl).1 (by decide),
   (setTaskEnabled_spec_amended 50 "farm" TaskId.farm stA rfl).2.2.1⟩

/-- C6: `setTaskInterval` fails, leaving the state unchanged, for every id
other than "balance"; on balance it succeeds, stores
`interval = minutes*60000`, recomputes `nextRun = lastRun + minutes*60000`
anchored to the recorded (positive) `lastRun` when the task is enabled, and
leaves `nextRun` unchanged when `lastRun` is absent. -/
theorem setTaskInterval_spec (s : String) (m : Nat) (st : TMState) :
    (s ≠ "balance" → setTaskInterval s m st = (false, st)) ∧
    (setTaskInterval "balance" m st).1 = true ∧
    (setTaskInterval "balance" m st).2.balance.interval = m * 60 * 1000 ∧
    (∀ T, st.balance.lastRun = some T → 0 < T → st.balance.enabled = true →
      (setTaskInterval "balance" m st).2.balance.nextRun =
        some (T + m * 60 * 1000)) ∧
    (st.balance.lastRun = none →
      (setTaskInterval "balance" m st).2.balance.nextRun = st.balance.nextRun) := by
  refine ⟨?_, ?_, ?_, ?_, ?_⟩
  · intro h
    unfold setTaskInterval
    rw [if_neg h]
  · rfl
  · unfold setTaskInterval setBalanceInterval
    rw [if_pos rfl]
    simp only []
    split <;> rfl
  · intro T hT hpos hen
    have hT0 : T ≠ 0 := Nat.pos_iff_ne_zero.mp hpos
    unfold setTaskInterval setBalanceInterval
    rw [if_pos rfl]
    simp [saveConfig_balance, setTask_balance, hT, hen, truthy, hT0]
  · intro h
    unfold setTaskInterval setBalanceInterval
    rw [if_pos rfl]
    simp [saveConfig_balance, setTask_balance, h, truthy]

/-- C6 witness: with balance enabled and `lastRun = 7`, setting a 5-minute
interval re-anchors `nextRun` to `7 + 300000`; "farm" is rejected. -/
theorem setTaskInterval_spec_witness :
    stC6.balance.lastRun = some 7 ∧ stC6.balance.enabled = true ∧
    (setTaskInterval "balance" 5 stC6).2.balance.nextRun =
      some (7 + 5 * 60 * 1000) ∧
    setTaskInterval "farm" 5 stC6 = (false, stC6) :=
  ⟨by decide, by decide,
   (setTaskInterval_spec "balance" 5 stC6).2.2.2.1 7 (by decide) (by decide) (by decide),
   (setTaskInterval_spec "farm" 5 stC6).1 (by decide)⟩

theorem inv_task (st : TMState) (h : Inv st) (tid : TaskId) :
    TaskInv (st.task tid) := by
  cases tid
  exacts [h.1, h.2.1, h.2.2]

theorem inv_setTask (st : TMState) (tid : TaskId) (t : Task) (h : Inv st)
    (ht : TaskInv t) : Inv (st.setTask tid t) := by
  cases tid
  exacts [⟨ht, h.2.1, h.2.2⟩, ⟨h.1, ht, h.2.2⟩, ⟨h.1, h.2.1, ht⟩]

theorem inv_saveConfig (st : TMState) (h : Inv st) : Inv (saveConfig st) := h

theorem inv_setCfgFeature (st : TMState) (tid : TaskId) (f : Feature)
    (h : Inv st) : Inv (st.setCfgFeature tid f) := h

theorem setTask_setTask (st : TMState) (tid : TaskId) (t t2 : Task) :
    (st.setTask tid t).setTask tid t2 = st.setTask tid t2 := by
  cases tid <;> rfl

theorem taskInv_of_enabled (t : Task) (h : t.enabled = true) : TaskInv t := by
  intro hfalse
  rw [h] at hfalse
  exact Bool.noConfusion hfalse

theorem inv_execOne (fns : ExecEnv) (tid : TaskId) (p : TMState × Nat)
    (h : Inv p.1)
    (hf : ∀ f, fns tid = some f →
      Inv (f p.2 p.1).2.1 ∧
      ((f p.2 p.1).1 = true → tid = TaskId.balance →
        ((f p.2 p.1).2.1.task tid).enabled = true)) :
    Inv (execOne fns tid p).1 := by
  unfold execOne
  cases hfns : fns tid with
  | none => exact h
  | some f =>
    obtain ⟨h1, h2⟩ := hf f hfns
    rcases hfp : f p.2 p.1 with ⟨ok, st1, t1⟩
    rw [hfp] at h1 h2
    cases ok with
    | false =>
      simp only [hfp]
      exact h1
    | true =>
      simp only [hfp]
      have h1' : Inv st1 := h1
      have hinv2 : Inv ((st1.setTask tid
          { st1.task tid with lastRun := some t1 }).setCfgFeature tid
            { (st1.setTask tid { st1.task tid with lastRun := some t1 }).config.feature tid with
              lastRun := ((st1.setTask tid { st1.task tid with lastRun := some t1 }).task tid).lastRun }) :=
        inv_setCfgFeature _ tid _
          (inv_setTask st1 tid _ h1' (inv_task st1 h1' tid))
      show Inv (saveConfig _)
      apply inv_saveConfig
      split
      · rename_i hc
        apply inv_setCfgFeature
        apply inv_setTask _ tid _ hinv2
        apply taskInv_of_enabled
        simp only [task_setCfgFeature, task_setTask_self]
        exact h2 rfl hc.1
      · exact hinv2

theorem inv_execList (fns : ExecEnv)
    (hf : ∀ tid f, fns tid = some f → ∀ t u, Inv u →
      Inv (f t u).2.1 ∧
      ((f t u).1 = true → tid = TaskId.balance →
        ((f t u).2.1.task tid).enabled = true)) :
    ∀ l p, Inv p.1 → Inv (execList fns l p).1 := by
  intro l
  induction l with
  | nil => intro p h; exact h
  | cons a l ih =>
    intro p h
    rw [execList]
    exact ih _ (inv_execOne fns a p h (fun f hfa => hf a f hfa p.2 p.1 h))

/-- C4 counterexample: the invariant "disabled implies no `nextRun`" breaks
when the balance task is disabled while a pass that already captured it as
due is in flight: the pass's success path re-sets `nextRun` on the now
disabled task. -/
theorem inv_cex :
    Inv stC4 ∧ ¬ Inv (executeDueTasks fnsC4 10 0 stC4).1 := by
  decide

/-- C4 amended: the invariant "enabled = false implies `nextRun` absent"
holds in the initial state loaded from a config satisfying it, and is
preserved by every administrative engine operation; an execution pass
preserves it provided each executor preserves it and does not leave the
balance task disabled after reporting success — the unrestricted claim
fails exactly when a captured-as-due balance task is disabled mid-pass. -/
theorem inv_preserved_amended :
    (∀ cfg, CfgInv cfg → Inv (initState cfg)) ∧
    (∀ now s e st, Inv st → Inv (setTaskEnabled now s e st).2) ∧
    (∀ now s m st, Inv st → Inv (setTaskNextRun now s m st).2) ∧
    (∀ s m st, Inv st → Inv (setTaskInterval s m st).2) ∧
    (∀ s im st, Inv st → Inv (registerTask s im st).2) ∧
    (∀ st, Inv st → Inv (start st).2 ∧ Inv (stop st).2) ∧
    (∀ fns now loginMs st, Inv st →
      (∀ tid f, fns tid = some f → ∀ t u, Inv u →
        Inv (f t u).2.1 ∧
        ((f t u).1 = true → tid = TaskId.balance →
          ((f t u).2.1.task tid).enabled = true)) →
      Inv (executeDueTasks fns now loginMs st).1) := by
  refine ⟨?_, ?_, ?_, ?_, ?_, ?_, ?_⟩
  · intro cfg hc
    exact ⟨hc.1, hc.2.1, hc.2.2⟩
  · intro now s e st h
    unfold setTaskEnabled
    cases hl : lookupTask s with
    | none =>
      dsimp only
      split
      · show Inv (saveConfig _)
        apply inv_saveConfig
        split <;> split <;> exact h
      · exact h
    | some tid =>
      dsimp only
      show Inv (saveConfig _)
      apply inv_saveConfig
      split
      · split
        · rw [setTask_setTask, setTask_setTask]
          exact inv_setTask st tid _ h (fun _ => rfl)
        · rw [setTask_setTask]
          exact inv_setTask st tid _ h (fun _ => rfl)
      · rename_i hB
        split
        · rename_i hc1
          rw [setTask_setTask]
          apply inv_setTask st tid _ h
          apply taskInv_of_enabled
          simp only [task_setTask_self]
          show e = true
          exact (Bool.and_eq_true _ _ |>.mp hc1).1
        · apply inv_setTask st tid _ h
          apply taskInv_of_enabled
          show e = true
          cases e
          · exact absurd rfl hB
          · rfl
  · intro now s m st h
    unfold setTaskNextRun
    cases hl : lookupTask s with
    | none =>
      dsimp only
      split
      · split
        · exact h
        · show Inv (saveConfig _)
          apply inv_saveConfig
          exact h
      · exact h
    | some tid =>
      dsimp only
      split
      · exact h
      · rename_i hen
        have hen2 : (st.task tid).enabled = true := by
          cases hE : (st.task tid).enabled
          · exact absurd (by simp [hE]) hen
          · rfl
        show Inv (saveConfig _)
        apply inv_saveConfig
        apply inv_setCfgFeature
        apply inv_setTask st tid _ h
        apply taskInv_of_enabled
        simp only [task_setTask_self]
        exact hen2
  · intro s m st h
    unfold setTaskInterval
    split
    · unfold setBalanceInterval
      show Inv (saveConfig _)
      apply inv_saveConfig
      split
      · rename_i hc
        rw [setTask_setTask]
        apply inv_setTask st TaskId.balance _ h
        apply taskInv_of_enabled
        exact (Bool.and_eq_true _ _ |>.mp hc).1
      · exact inv_setTask st TaskId.balance _ h (inv_task st h TaskId.balance)
    · exact h
  · intro s im st h
    unfold registerTask
    cases hl : lookupTask s with
    | none =>
      dsimp only
      split <;> exact h
    | some tid =>
      dsimp only
      cases im with
      | none => exact h
      | some m =>
        dsimp only
        split
        · exact inv_setTask st tid _ h (inv_task st h tid)
        · exact h
  · intro st h
    exact ⟨h, h⟩
  · intro fns now loginMs st h hf
    unfold executeDueTasks
    dsimp only
    split
    · exact h
    · exact inv_execList fns hf (getDueTasks now st) _ h

/-- C4 witness: the amended preservation applied to a concrete enable call
and to a concrete pass with no registered executors. -/
theorem inv_preserved_amended_witness :
    Inv (setTaskEnabled 7 "farm" true stA).2 ∧
    Inv (executeDueTasks fnsNone 20 0 stB).1 :=
  ⟨inv_preserved_amended.2.1 7 "farm" true stA (by decide),
   inv_preserved_amended.2.2.2.2.2.2 fnsNone 20 0 stB (by decide)
     (by intro tid f hfa; simp [fnsNone] at hfa)⟩

/-- C8 counterexample: `registerTask` with an interval on the balance task
overwrites the interval (1800000 becomes 300000) but performs no persist:
the write counter and the document on disk are unchanged. -/
theorem registerTask_no_persist_cex :
    (registerTask "balance" (some 5) stA).2.balance.interval = 300000 ∧
    stA.balance.interval = 1800000 ∧
    (registerTask "balance" (some 5) stA).2.saveCount = stA.saveCount ∧
    (registerTask "balance" (some 5) stA).2.disk = stA.disk := by
  decide

/-- C8 amended: `setTaskEnabled` on a known id, `setTaskInterval` on
balance, `setTaskNextRun` on a known enabled id, and the per-task success
path inside a pass each perform a full config persist before returning;
`registerTask`, by contrast, never persists, even when it overwrites the
balance interval. -/
theorem persist_behavior_amended :
    (∀ now s e st tid, lookupTask s = some tid →
      Persisted st (setTaskEnabled now s e st).2) ∧
    (∀ m st, Persisted st (setTaskInterval "balance" m st).2) ∧
    (∀ now s m st tid, lookupTask s = some tid → (st.task tid).enabled = true →
      Persisted st (setTaskNextRun now s m st).2) ∧
    (∀ fns tid f p st1 t1, fns tid = some f → f p.2 p.1 = (true, st1, t1) →
      Persisted st1 (execOne fns tid p).1) ∧
    (∀ s im st, (registerTask s im st).2.saveCount = st.saveCount ∧
      (registerTask s im st).2.disk = st.disk) := by
  refine ⟨?_, ?_, ?_, ?_, ?_⟩
  · intro now s e st tid hs
    unfold setTaskEnabled
    rw [hs]
    apply saveConfig_persists
    split <;> split <;> simp [saveCount_setTask]
  · intro m st
    unfold setTaskInterval setBalanceInterval
    rw [if_pos rfl]
    apply saveConfig_persists
    split
    · rw [setTask_setTask]
      simp [saveCount_setTask]
    · simp [saveCount_setTask]
  · intro now s m st tid hs hen
    unfold setTaskNextRun
    rw [hs]
    dsimp only
    rw [if_neg (by simp [hen])]
    apply saveConfig_persists
    simp [saveCount_setCfgFeature, saveCount_setTask]
  · intro fns tid f p st1 t1 hf hfp
    unfold execOne
    simp only [hf, hfp, if_true]
    apply saveConfig_persists
    split <;> simp [saveCount_setCfgFeature, saveCount_setTask]
  · intro s im st
    unfold registerTask
    cases hl : lookupTask s with
    | none =>
      dsimp only
      split <;> exact ⟨rfl, rfl⟩
    | some tid =>
      dsimp only
      cases im with
      | none => exact ⟨rfl, rfl⟩
      | some m =>
        dsimp only
        split
        · constructor
          · simp [saveCount_setTask]
          · cases tid <;> rfl
        · exact ⟨rfl, rfl⟩

/-- C8 witness: a concrete enable call persists exactly once and leaves the
disk document mirroring the state. -/
theorem persist_behavior_amended_witness :
    Persisted stB (setTaskEnabled 20 "farm" true stB).2 :=
  persist_behavior_amended.1 20 "farm" true stB TaskId.farm rfl

end TwBot
